import Mathlib

set_option autoImplicit false

/-!
Shallow embedding of the net-shell remote script pipeline executor.

Each definition mirrors one Rust item of the repository:
 - string replacement and the variable store come from src/vars/mod.rs,
 - extraction (cascade and fallback modes) comes from src/vars/mod.rs,
 - the template engine comes from src/template.rs,
 - configuration validation comes from src/config/mod.rs,
 - the pipeline engine comes from src/executor/mod.rs,
 - the local transport comes from src/ssh/local.rs.

Conventions of the embedding:
 - Rust HashMap is modelled as an association list in insertion order
   (insert replaces the value of an existing key in place);
 - file system reads, process execution, SSH sessions and elapsed clock
   readings are supplied by explicit oracle parameters;
 - the regex library is abstracted as a compile function from pattern
   strings to capture functions (None models invalid regex syntax);
 - Rust while-loops that can diverge are given an explicit fuel
   parameter; running out of fuel returns a distinguished none.
-/

namespace NetShell

/-! ## String primitives: Rust str::replace over lists of characters -/

/-- One step of Rust str::replace: scan left to right, replace each
non-overlapping occurrence of pat by rep. The fuel argument only
guarantees termination; fuel equal to the length of the string is enough
whenever pat is nonempty (every placeholder in the source is nonempty). -/
def replaceAllAux (pat rep : List Char) : Nat → List Char → List Char
  | _, [] => []
  | 0, s => s
  | fuel + 1, c :: rest =>
    if pat.isPrefixOf (c :: rest) then
      rep ++ replaceAllAux pat rep fuel ((c :: rest).drop pat.length)
    else
      c :: replaceAllAux pat rep fuel rest

/-- Rust str::contains for a literal pattern. -/
def containsSub (s pat : List Char) : Bool :=
  match s with
  | [] => pat.isEmpty
  | c :: rest => pat.isPrefixOf (c :: rest) || containsSub rest pat

/-- Rust String::replace on whole strings. -/
def strReplace (s pat rep : String) : String :=
  ⟨replaceAllAux pat.data rep.data s.data.length s.data⟩

/-! ## Variable store (src/vars/mod.rs, VariableManager) -/

/-- The variable store: HashMap of String to String, modelled as an
association list in insertion order. -/
abbrev VarMap := List (String × String)

/-- HashMap::insert: replace the value of an existing key in place,
otherwise append the new binding at the end. -/
def setVar : VarMap → String → String → VarMap
  | [], k, v => [(k, v)]
  | (k0, v0) :: rest, k, v =>
    if k0 = k then (k, v) :: rest else (k0, v0) :: setVar rest k v

/-- HashMap::get. -/
def getVar (m : VarMap) (k : String) : Option String :=
  match m with
  | [] => none
  | (k0, v0) :: rest => if k0 = k then some v0 else getVar rest k

/-- Merge the second map into the first, second map wins on conflicts
(HashMap::extend and the per-entry set_variable loops of the engine). -/
def mergeVars (base extra : VarMap) : VarMap :=
  extra.foldl (fun m kv => setVar m kv.1 kv.2) base

/-- The placeholder string produced by format with double braces around
a key: two left braces, a space, the key, a space, two right braces. -/
def placeholder (k : String) : String := "\x7b\x7b " ++ k ++ " \x7d\x7d"

/-- VariableManager::replace_variables: for every stored key replace all
occurrences of its placeholder by its value. The Rust code iterates the
HashMap in unspecified order; the model iterates in list order. -/
def replaceVariables (vars : VarMap) (content : String) : String :=
  vars.foldl (fun acc kv => strReplace acc (placeholder kv.1) kv.2) content

/-! ## Fixpoint lemmas for replacement -/

theorem replaceAllAux_of_not_contains (pat rep : List Char) :
    ∀ (fuel : Nat) (s : List Char), containsSub s pat = false →
      replaceAllAux pat rep fuel s = s := by
  intro fuel
  induction fuel with
  | zero =>
    intro s _
    cases s <;> rfl
  | succ n ih =>
    intro s h
    cases s with
    | nil => rfl
    | cons c rest =>
      have h2 := h
      simp only [containsSub, Bool.or_eq_false_iff] at h2
      simp only [replaceAllAux, h2.1, Bool.false_eq_true, if_false]
      exact congrArg (c :: ·) (ih rest h2.2)

theorem strReplace_of_not_contains (s pat rep : String)
    (h : containsSub s.data pat.data = false) : strReplace s pat rep = s := by
  cases s with
  | mk d => exact congrArg String.mk (replaceAllAux_of_not_contains _ _ _ d h)

theorem replaceVariables_fixpoint :
    ∀ (vars : VarMap) (s : String),
      (∀ kv ∈ vars, containsSub s.data (placeholder kv.1).data = false) →
      replaceVariables vars s = s := by
  intro vars
  induction vars with
  | nil => intro s _; rfl
  | cons kv rest ih =>
    intro s h
    have h1 : strReplace s (placeholder kv.1) kv.2 = s :=
      strReplace_of_not_contains _ _ _ (h kv (List.mem_cons_self kv rest))
    have h2 : replaceVariables rest s = s :=
      ih s (fun p hp => h p (List.mem_cons_of_mem kv hp))
    show List.foldl _ (strReplace s (placeholder kv.1) kv.2) rest = s
    rw [h1]
    exact h2

/-- C8: replace_variables is not idempotent in general. A nearby true
statement: whenever the output of replace_variables contains no
placeholder of any stored key, a second application leaves it unchanged
(any text free of stored placeholders is a fixed point). -/
theorem C8_replace_variables_fixpoint_when_no_placeholder_remains
    (vars : VarMap) (t : String)
    (h : ∀ kv ∈ vars,
      containsSub (replaceVariables vars t).data (placeholder kv.1).data = false) :
    replaceVariables vars (replaceVariables vars t) = replaceVariables vars t :=
  replaceVariables_fixpoint vars (replaceVariables vars t) h

/-- Witness for C8: with the store mapping a to 1, the rendered text 1
contains no placeholder and the second application changes nothing. -/
theorem C8_fixpoint_witness :
    (∀ kv ∈ ([("a", "1")] : VarMap),
      containsSub (replaceVariables [("a", "1")] "\x7b\x7b a \x7d\x7d").data
        (placeholder kv.1).data = false) ∧
    replaceVariables [("a", "1")]
        (replaceVariables [("a", "1")] "\x7b\x7b a \x7d\x7d")
      = replaceVariables [("a", "1")] "\x7b\x7b a \x7d\x7d" :=
  ⟨by decide,
   C8_replace_variables_fixpoint_when_no_placeholder_remains _ _ (by decide)⟩

/-- Counterexample for C8 as stated: with the single-key store mapping a
to a value that itself contains the placeholder of a, applying
replace_variables twice gives a different string than applying it once,
so replace_variables is not idempotent. -/
theorem C8_counterexample_not_idempotent :
    replaceVariables [("a", "\x7b\x7b a \x7d\x7dx")]
        (replaceVariables [("a", "\x7b\x7b a \x7d\x7dx")] "\x7b\x7b a \x7d\x7d")
      ≠ replaceVariables [("a", "\x7b\x7b a \x7d\x7dx")] "\x7b\x7b a \x7d\x7d" := by
  decide

/-! ## Extraction engine (src/vars/mod.rs, extract_variables and friends)

The regex crate is abstracted: a RegexSem maps a pattern string to its
compiled matcher (none models invalid regex syntax), and a matcher maps
a haystack to its captures. group0 is the full match, group1 the first
capture group, exactly the two capture accesses the source performs. -/

/-- The two capture groups the source reads from a regex match. -/
structure RegexCaptures where
  group0 : Option String
  group1 : Option String
  deriving Repr, DecidableEq

/-- Abstract semantics of Regex::new plus Regex::captures. -/
abbrev RegexSem := String → Option (String → Option RegexCaptures)

/-- ExtractRule (src/models/mod.rs): name, ordered patterns, source
selector, cascade flag (serde default true). -/
structure ExtractRule where
  name : String
  patterns : List String
  source : String
  cascade : Bool := true
  deriving Repr, DecidableEq

/-- ExecutionResult (src/models/mod.rs). -/
structure ExecutionResult where
  success : Bool
  stdout : String
  stderr : String
  script : String
  exit_code : Int
  execution_time_ms : Nat
  error_message : Option String
  deriving Repr, DecidableEq

instance {ε α : Type} [DecidableEq ε] [DecidableEq α] :
    DecidableEq (Except ε α) := fun x y =>
  match x, y with
  | .error a, .error b =>
    if h : a = b then .isTrue (congrArg Except.error h)
    else .isFalse (fun hc => h (by injection hc))
  | .ok a, .ok b =>
    if h : a = b then .isTrue (congrArg Except.ok h)
    else .isFalse (fun hc => h (by injection hc))
  | .error _, .ok _ => .isFalse (fun hc => by injection hc)
  | .ok _, .error _ => .isFalse (fun hc => by injection hc)

/-- A single quote character, used to reproduce the quoting of the Rust
error message texts. -/
def sq : String := String.mk [Char.ofNat 39]

/-- Quote a name the way the Rust format strings do. -/
def quoted (s : String) : String := sq ++ s ++ sq

/-- The context message attached when Regex::new fails. -/
def invalidPatternMsg (idx : Nat) (ruleName pat : String) : String :=
  "Invalid regex pattern " ++ toString (idx + 1) ++ " for rule "
    ++ quoted ruleName ++ ": " ++ pat

/-- The loop of extract_with_cascade: the carrier starts as the source
text; each pattern matches the current carrier; the first capture group
(or, with a warning, the full match when there is no capture group)
becomes the next carrier; the result of the last pattern is the
extracted value; a failed match ends the loop with nothing extracted. -/
def cascadeRun (sem : RegexSem) (ruleName : String) :
    Nat → List String → String → Except String (Option String)
  | _, [], _ => .ok none
  | idx, p :: rest, cur =>
    match sem p with
    | none => .error (invalidPatternMsg idx ruleName p)
    | some re =>
      match re cur with
      | none => .ok none
      | some caps =>
        match (match caps.group1 with
               | some v => some v
               | none => caps.group0) with
        | none => cascadeRun sem ruleName (idx + 1) rest cur
        | some mv =>
          match rest with
          | [] => .ok (some mv)
          | _ :: _ => cascadeRun sem ruleName (idx + 1) rest mv

/-- VariableManager::extract_with_cascade: run the cascade loop, then
store the extracted value under the rule name if there is one. -/
def extract_with_cascade (sem : RegexSem) (st : VarMap) (rule : ExtractRule)
    (src : String) : Except String VarMap :=
  match cascadeRun sem rule.name 0 rule.patterns src with
  | .error e => .error e
  | .ok none => .ok st
  | .ok (some v) => .ok (setVar st rule.name v)

/-- The loop of extract_with_fallback: try the patterns in order; the
first whose first capture group participates in a match supplies the
value; a match without a first capture group is skipped with a warning. -/
def fallbackRun (sem : RegexSem) (ruleName : String) :
    Nat → List String → String → Except String (Option String)
  | _, [], _ => .ok none
  | idx, p :: rest, src =>
    match sem p with
    | none => .error (invalidPatternMsg idx ruleName p)
    | some re =>
      match re src with
      | some caps =>
        match caps.group1 with
        | some v => .ok (some v)
        | none => fallbackRun sem ruleName (idx + 1) rest src
      | none => fallbackRun sem ruleName (idx + 1) rest src

/-- VariableManager::extract_with_fallback: run the fallback loop, then
store the value under the rule name if one was found. -/
def extract_with_fallback (sem : RegexSem) (st : VarMap) (rule : ExtractRule)
    (src : String) : Except String VarMap :=
  match fallbackRun sem rule.name 0 rule.patterns src with
  | .error e => .error e
  | .ok none => .ok st
  | .ok (some v) => .ok (setVar st rule.name v)

/-- Dispatch on the cascade flag, as the per-rule body of
extract_variables does. -/
def applyRuleMode (sem : RegexSem) (st : VarMap) (rule : ExtractRule)
    (src : String) : Except String VarMap :=
  if rule.cascade then extract_with_cascade sem st rule src
  else extract_with_fallback sem st rule src

/-- Selection of the source text by rule.source in extract_variables. -/
def sourceContent (r : ExecutionResult) (src : String) : Except String String :=
  if src = "stdout" then .ok r.stdout
  else if src = "stderr" then .ok r.stderr
  else if src = "exit_code" then .ok (toString r.exit_code)
  else .error ("Unknown extract source: " ++ src)

/-- VariableManager::extract_variables: process the rules in order,
threading the store. -/
def extractVariables (sem : RegexSem) :
    List ExtractRule → VarMap → ExecutionResult → Except String VarMap
  | [], st, _ => .ok st
  | rule :: rest, st, r =>
    match sourceContent r rule.source with
    | .error e => .error e
    | .ok src =>
      match applyRuleMode sem st rule src with
      | .error e => .error e
      | .ok st2 => extractVariables sem rest st2 r

/-! ### Specification-side value functions for the two modes

These two definitions follow the words of the spec, not the source; the
claim theorems compare the source-derived functions against them. -/

/-- Modelled from the spec: the cascade value is the first capture of
the last pattern applied to the first capture of the previous pattern,
and so on back to the source text. -/
def cascadeSpecValue (sem : RegexSem) : List String → String → Option String
  | [], _ => none
  | p :: rest, src =>
    match sem p with
    | none => none
    | some re =>
      match re src with
      | none => none
      | some caps =>
        match caps.group1 with
        | none => none
        | some v =>
          match rest with
          | [] => some v
          | _ :: _ => cascadeSpecValue sem rest v

/-- Modelled from the spec: the fallback value is the first capture
group of the first pattern whose first capture group matches the source. -/
def fallbackSpecValue (sem : RegexSem) : List String → String → Option String
  | [], _ => none
  | p :: rest, src =>
    match sem p with
    | none => fallbackSpecValue sem rest src
    | some re =>
      match re src with
      | none => fallbackSpecValue sem rest src
      | some caps =>
        match caps.group1 with
        | some v => some v
        | none => fallbackSpecValue sem rest src

/-- True when the cascade aborts because some pattern fails to match its
carrier (carriers computed as the code computes them). -/
def cascadeMatchFails (sem : RegexSem) : List String → String → Bool
  | [], _ => false
  | p :: rest, cur =>
    match sem p with
    | none => false
    | some re =>
      match re cur with
      | none => true
      | some caps =>
        match (match caps.group1 with
               | some v => some v
               | none => caps.group0) with
        | none => cascadeMatchFails sem rest cur
        | some mv =>
          match rest with
          | [] => false
          | _ :: _ => cascadeMatchFails sem rest mv

theorem cascadeRun_of_specValue (sem : RegexSem) (ruleName : String) :
    ∀ (pats : List String) (src v : String) (idx : Nat),
      cascadeSpecValue sem pats src = some v →
      cascadeRun sem ruleName idx pats src = .ok (some v) := by
  intro pats
  induction pats with
  | nil => intro src v idx h; simp [cascadeSpecValue] at h
  | cons p rest ih =>
    intro src v idx h
    cases hsem : sem p with
    | none => simp [cascadeSpecValue, hsem] at h
    | some re =>
      cases hre : re src with
      | none => simp [cascadeSpecValue, hsem, hre] at h
      | some caps =>
        cases hg1 : caps.group1 with
        | none => simp [cascadeSpecValue, hsem, hre, hg1] at h
        | some w =>
          cases rest with
          | nil =>
            simp only [cascadeSpecValue, hsem, hre, hg1] at h
            simp [cascadeRun, hsem, hre, hg1, h]
          | cons q qs =>
            simp only [cascadeSpecValue, hsem, hre, hg1] at h
            simp only [cascadeRun, hsem, hre, hg1]
            exact ih w v (idx + 1) h

theorem cascadeRun_of_matchFails (sem : RegexSem) (ruleName : String) :
    ∀ (pats : List String) (src : String) (idx : Nat),
      cascadeMatchFails sem pats src = true →
      cascadeRun sem ruleName idx pats src = .ok none := by
  intro pats
  induction pats with
  | nil => intro src idx h; simp [cascadeMatchFails] at h
  | cons p rest ih =>
    intro src idx h
    cases hsem : sem p with
    | none => simp [cascadeMatchFails, hsem] at h
    | some re =>
      cases hre : re src with
      | none => simp [cascadeRun, hsem, hre]
      | some caps =>
        cases hmv : (match caps.group1 with
                     | some v => some v
                     | none => caps.group0) with
        | none =>
          simp only [cascadeMatchFails, hsem, hre, hmv] at h
          simp only [cascadeRun, hsem, hre, hmv]
          exact ih src (idx + 1) h
        | some mv =>
          cases rest with
          | nil => simp [cascadeMatchFails, hsem, hre, hmv] at h
          | cons q qs =>
            simp only [cascadeMatchFails, hsem, hre, hmv] at h
            simp only [cascadeRun, hsem, hre, hmv]
            exact ih mv (idx + 1) h

/-- C5 (amended): in cascade mode, when every pattern matches its
carrier through its first capture group, the stored value is the first
capture of the last pattern applied to the first capture of the previous
one, and so on back to the source; when some pattern fails to match its
carrier, the cascade stops silently and the rule stores nothing. A
pattern that matches without any capture group does not abort the
cascade: the code substitutes its full match (with a warning). -/
theorem C5_cascade_amended_characterisation (sem : RegexSem) (st : VarMap)
    (rule : ExtractRule) (src : String) (hc : rule.cascade = true) :
    (∀ v, cascadeSpecValue sem rule.patterns src = some v →
        applyRuleMode sem st rule src = .ok (setVar st rule.name v)) ∧
    (cascadeMatchFails sem rule.patterns src = true →
        applyRuleMode sem st rule src = .ok st) := by
  constructor
  · intro v h
    simp only [applyRuleMode, hc, if_true, extract_with_cascade]
    rw [cascadeRun_of_specValue sem rule.name rule.patterns src v 0 h]
  · intro h
    simp only [applyRuleMode, hc, if_true, extract_with_cascade]
    rw [cascadeRun_of_matchFails sem rule.name rule.patterns src 0 h]

/-- Concrete regex semantics for the C5 witness: the cascade example of
the spec, with stdout "token: abc123=xyz". -/
def c5wSem : RegexSem := fun p =>
  if p = "token: (.*)" then
    some (fun s =>
      if s = "token: abc123=xyz" then
        some ⟨some "token: abc123=xyz", some "abc123=xyz"⟩
      else none)
  else if p = "(.+?)=" then
    some (fun s =>
      if s = "abc123=xyz" then some ⟨some "abc123=", some "abc123"⟩
      else none)
  else none

/-- The cascade rule of the C5 witness. -/
def c5wRule : ExtractRule :=
  { name := "token_value", patterns := ["token: (.*)", "(.+?)="],
    source := "stdout", cascade := true }

/-- Witness for C5: on the cascade scenario of the spec the chained
first captures give abc123 and the rule stores it. -/
theorem C5_cascade_witness :
    cascadeSpecValue c5wSem c5wRule.patterns "token: abc123=xyz"
        = some "abc123" ∧
    applyRuleMode c5wSem [] c5wRule "token: abc123=xyz"
        = .ok [("token_value", "abc123")] :=
  ⟨by decide,
   (C5_cascade_amended_characterisation c5wSem [] c5wRule
      "token: abc123=xyz" rfl).1 "abc123" (by decide)⟩

/-- Concrete regex semantics for the C5 counterexample: one pattern that
matches without any capture group. -/
def c5cSem : RegexSem := fun p =>
  if p = "abc" then
    some (fun s => if s = "xabc" then some ⟨some "abc", none⟩ else none)
  else none

/-- The rule of the C5 counterexample. -/
def c5cRule : ExtractRule :=
  { name := "r", patterns := ["abc"], source := "stdout", cascade := true }

/-- Counterexample for C5 as stated: a cascade whose only pattern
matches but has no capture group does not fail silently; the rule stores
the full match, so the store is changed. -/
theorem C5_counterexample_no_capture_group_stores_full_match :
    applyRuleMode c5cSem [] c5cRule "xabc" = .ok [("r", "abc")] ∧
    applyRuleMode c5cSem [] c5cRule "xabc" ≠ .ok ([] : VarMap) :=
  ⟨rfl, by decide⟩

theorem fallbackRun_eq_specValue (sem : RegexSem) (ruleName : String) :
    ∀ (pats : List String) (src : String) (idx : Nat),
      (∀ p ∈ pats, (sem p).isSome = true) →
      fallbackRun sem ruleName idx pats src
        = .ok (fallbackSpecValue sem pats src) := by
  intro pats
  induction pats with
  | nil => intro src idx _; rfl
  | cons p rest ih =>
    intro src idx hcomp
    have hp : (sem p).isSome = true := hcomp p (List.mem_cons_self p rest)
    have hrest : ∀ q ∈ rest, (sem q).isSome = true :=
      fun q hq => hcomp q (List.mem_cons_of_mem p hq)
    cases hsem : sem p with
    | none => rw [hsem] at hp; simp at hp
    | some re =>
      cases hre : re src with
      | none =>
        simp only [fallbackRun, fallbackSpecValue, hsem, hre]
        exact ih src (idx + 1) hrest
      | some caps =>
        cases hg1 : caps.group1 with
        | none =>
          simp only [fallbackRun, fallbackSpecValue, hsem, hre, hg1]
          exact ih src (idx + 1) hrest
        | some v =>
          simp only [fallbackRun, fallbackSpecValue, hsem, hre, hg1]

/-- C6: in fallback mode the patterns are tried in order and the rule
stores the first capture group of the first pattern whose first capture
group matches; if none matches this way the rule stores nothing and no
error is raised (assuming every pattern compiles). -/
theorem C6_fallback_first_capture_wins (sem : RegexSem) (st : VarMap)
    (rule : ExtractRule) (src : String) (hc : rule.cascade = false)
    (hcomp : ∀ p ∈ rule.patterns, (sem p).isSome = true) :
    applyRuleMode sem st rule src =
      .ok (match fallbackSpecValue sem rule.patterns src with
           | some v => setVar st rule.name v
           | none => st) := by
  simp only [applyRuleMode, hc, Bool.false_eq_true, if_false,
    extract_with_fallback]
  rw [fallbackRun_eq_specValue sem rule.name rule.patterns src 0 hcomp]
  cases fallbackSpecValue sem rule.patterns src <;> rfl

/-- Concrete regex semantics for the C6 witness: the fallback example of
the spec, with stdout "build 7" and a newline. -/
def c6wSem : RegexSem := fun p =>
  if p = "version (\\d+)" then some (fun _ => none)
  else if p = "build (\\d+)" then
    some (fun s =>
      if s = "build 7\n" then some ⟨some "build 7", some "7"⟩ else none)
  else none

/-- The fallback rule of the C6 witness. -/
def c6wRule : ExtractRule :=
  { name := "num", patterns := ["version (\\d+)", "build (\\d+)"],
    source := "stdout", cascade := false }

/-- Witness for C6: the first pattern does not match, the second one
matches with first capture 7, and the rule stores 7. -/
theorem C6_fallback_witness :
    (∀ p ∈ c6wRule.patterns, (c6wSem p).isSome = true) ∧
    applyRuleMode c6wSem [] c6wRule "build 7\n" = .ok [("num", "7")] :=
  ⟨by decide,
   (C6_fallback_first_capture_wins c6wSem [] c6wRule "build 7\n" rfl
      (by decide)).trans (by decide)⟩

/-! ## Configuration model (src/models/mod.rs, fields as used by
src/executor/mod.rs) and validation (src/config/mod.rs) -/

/-- ExecutionMethod. -/
inductive ExecutionMethod
  | ssh
  | websocket
  deriving Repr, DecidableEq

/-- SshConfig. -/
structure SshConfig where
  host : String
  port : Nat
  username : String
  password : Option String
  private_key_path : Option String
  session_timeout_seconds : Option Nat
  timeout_seconds : Option Nat
  deriving Repr, DecidableEq

/-- WebSocketConfig (declared but unimplemented transport). -/
structure WebSocketConfig where
  url : String
  timeout_seconds : Option Nat
  deriving Repr, DecidableEq

/-- ClientConfig. -/
structure ClientConfig where
  name : String
  execution_method : ExecutionMethod
  ssh_config : Option SshConfig
  websocket_config : Option WebSocketConfig
  deriving Repr, DecidableEq

/-- Step, with the title, variables and extract fields the executor
reads. -/
structure Step where
  name : String
  title : Option String
  script : String
  servers : List String
  timeout_seconds : Option Nat
  «variables» : Option VarMap
  extract : Option (List ExtractRule)
  deriving Repr, DecidableEq

/-- Pipeline. -/
structure Pipeline where
  name : String
  title : Option String
  steps : List Step
  deriving Repr, DecidableEq

/-- RemoteExecutionConfig; the clients HashMap is an association list. -/
structure RemoteExecutionConfig where
  «variables» : Option VarMap
  clients : List (String × ClientConfig)
  pipelines : List Pipeline
  default_timeout : Option Nat
  deriving Repr, DecidableEq

/-- HashMap::get on the clients map. -/
def lookupClient (cfg : RemoteExecutionConfig) (server : String) :
    Option ClientConfig :=
  getVar2 cfg.clients server
where
  getVar2 : List (String × ClientConfig) → String → Option ClientConfig
    | [], _ => none
    | (k, c) :: rest, s => if k = s then some c else getVar2 rest s

/-- The inner server loop of ConfigManager::validate_config. -/
def validateServers (cfg : RemoteExecutionConfig) (stepName : String) :
    List String → Except String Unit
  | [] => .ok ()
  | s :: rest =>
    if (lookupClient cfg s).isSome then validateServers cfg stepName rest
    else .error ("Server " ++ quoted s ++ " referenced in step "
      ++ quoted stepName ++ " not found in clients")

/-- The step loop of ConfigManager::validate_config. -/
def validateSteps (cfg : RemoteExecutionConfig) (pipelineName : String) :
    List Step → Except String Unit
  | [] => .ok ()
  | step :: rest =>
    if step.servers.isEmpty then
      .error ("Step " ++ quoted step.name ++ " in pipeline "
        ++ quoted pipelineName ++ " has no servers")
    else
      match validateServers cfg step.name step.servers with
      | .error e => .error e
      | .ok _ => validateSteps cfg pipelineName rest

/-- The pipeline loop of ConfigManager::validate_config. -/
def validatePipelines (cfg : RemoteExecutionConfig) :
    List Pipeline → Except String Unit
  | [] => .ok ()
  | p :: rest =>
    if p.steps.isEmpty then
      .error ("Pipeline " ++ quoted p.name ++ " has no steps")
    else
      match validateSteps cfg p.name p.steps with
      | .error e => .error e
      | .ok _ => validatePipelines cfg rest

/-- ConfigManager::validate_config. -/
def validate_config (cfg : RemoteExecutionConfig) : Except String Unit :=
  if cfg.clients.isEmpty then .error "No clients configured"
  else if cfg.pipelines.isEmpty then .error "No pipelines configured"
  else validatePipelines cfg cfg.pipelines

/-- A minimal SSH client configuration used by the concrete scenarios. -/
def demoSsh : SshConfig :=
  { host := "10.0.0.1", port := 22, username := "root",
    password := some "pw", private_key_path := none,
    session_timeout_seconds := none, timeout_seconds := none }

/-- A minimal SSH client used by the concrete scenarios. -/
def demoClient : ClientConfig :=
  { name := "s1", execution_method := .ssh,
    ssh_config := some demoSsh, websocket_config := none }

/-- A step with an empty servers list, which the spec says means local
execution on the executor host. -/
def c3LocalStep : Step :=
  { name := "local_step", title := none, script := "run.sh", servers := [],
    timeout_seconds := none, «variables» := none, extract := none }

/-- A configuration whose only pipeline contains the empty-servers step. -/
def c3Cfg : RemoteExecutionConfig :=
  { «variables» := none, clients := [("s1", demoClient)],
    pipelines := [{ name := "deploy", title := none,
                    steps := [c3LocalStep] }],
    default_timeout := none }

/-- C3: validate_config rejects a step whose servers list is empty, even
though the spec and the executor treat an empty list as local execution;
on the failing configuration it returns the has-no-servers error rather
than accepting. -/
theorem C3_validate_config_rejects_empty_servers :
    validate_config c3Cfg
      = .error ("Step " ++ quoted "local_step" ++ " in pipeline "
          ++ quoted "deploy" ++ " has no servers") ∧
    (validate_config c3Cfg).isOk = false := by
  constructor
  · rfl
  · rfl

/-! ## Local transport (src/ssh/local.rs,
LocalExecutor::execute_script_with_realtime_output)

The process-level effects are supplied by an oracle: the outcome of
waiting on the child (completion with an optional exit code, a wait
error, or elapsing of the tokio timeout), the accumulated stream
contents, and the spawn result. -/

/-- Outcome of the timed wait on the child process. -/
inductive WaitOutcome
  | completed (code : Option Int)
  | waitFailed (msg : String)
  | timedOut
  deriving Repr, DecidableEq

/-- Oracle for one local process run. -/
structure LocalRunOutcome where
  spawnError : Option String
  wait : WaitOutcome
  stdoutContent : String
  stderrContent : String
  elapsedMs : Nat
  deriving Repr, DecidableEq

/-- The global-scripts fold of the local executor: read each auxiliary
file, prefixing each content with a newline; the first read failure
aborts. -/
def readGlobals (readFile : String → Option String) :
    List String → Except String String
  | [] => .ok ""
  | g :: rest =>
    match readFile g with
    | none => .error ("read file:[" ++ g ++ "]")
    | some c =>
      match readGlobals readFile rest with
      | .error e => .error e
      | .ok s => .ok ("\n" ++ c ++ s)

/-- LocalExecutor::execute_script_with_realtime_output: check the script
file, read and substitute it, concatenate the global scripts, write a
temporary file, spawn bash on it with the variables as environment, wait
under the step timeout (default 60 seconds), and assemble the result.
On wait failure or timeout the function returns an error to the caller. -/
def localExecute (readFile : String → Option String)
    (globalScripts : List String) (outcome : LocalRunOutcome)
    (step : Step) (vars : VarMap) : Except String ExecutionResult :=
  match readFile step.script with
  | none => .error ("Script " ++ quoted step.script ++ " not found")
  | some content =>
    let substituted := replaceVariables vars content
    match readGlobals readFile globalScripts with
    | .error e => .error e
    | .ok g =>
      let _tempFileContent := g ++ "\n" ++ substituted
      match outcome.spawnError with
      | some m => .error ("Failed to spawn local script process: " ++ m)
      | none =>
        let timeoutSeconds := step.timeout_seconds.getD 60
        match outcome.wait with
        | .waitFailed m => .error ("Local script execution failed: " ++ m)
        | .timedOut =>
          .error ("Local script execution timed out after "
            ++ toString timeoutSeconds ++ " seconds")
        | .completed code =>
          let exitCode := code.getD (-1)
          let success := exitCode == 0
          .ok { success := success, stdout := outcome.stdoutContent,
                stderr := outcome.stderrContent, script := step.script,
                exit_code := exitCode, execution_time_ms := outcome.elapsedMs,
                error_message :=
                  if success then none
                  else some ("Script exited with code " ++ toString exitCode) }

/-- C4 (amended): when the script exceeds the step timeout (default 60
seconds when unspecified) the local transport kills the process and
raises the timeout as an error to the caller, instead of returning an
ExecutionResult with success false. -/
theorem C4_timeout_raises_error_to_caller (readFile : String → Option String)
    (globalScripts : List String) (outcome : LocalRunOutcome) (step : Step)
    (vars : VarMap)
    (hscript : (readFile step.script).isSome = true)
    (hglob : (readGlobals readFile globalScripts).isOk = true)
    (hspawn : outcome.spawnError = none)
    (hwait : outcome.wait = .timedOut) :
    localExecute readFile globalScripts outcome step vars
      = .error ("Local script execution timed out after "
          ++ toString (step.timeout_seconds.getD 60) ++ " seconds") := by
  unfold localExecute
  cases hrf : readFile step.script with
  | none => rw [hrf] at hscript; simp at hscript
  | some content =>
    cases hg : readGlobals readFile globalScripts with
    | error e => rw [hg] at hglob; simp [Except.isOk, Except.toBool] at hglob
    | ok g => simp [hspawn, hwait]

/-- The step of the C4 scenarios: no timeout configured, so the default
of 60 seconds applies. -/
def c4Step : Step :=
  { name := "slow", title := none, script := "slow.sh", servers := [],
    timeout_seconds := none, «variables» := none, extract := none }

/-- The oracle of the C4 scenarios: the child outlives the timeout. -/
def c4Outcome : LocalRunOutcome :=
  { spawnError := none, wait := .timedOut, stdoutContent := "",
    stderrContent := "", elapsedMs := 60000 }

/-- Witness for C4: the concrete timed-out run returns the timeout
error with the default 60 second bound. -/
theorem C4_timeout_witness :
    ((fun _ : String => some "sleep 100") c4Step.script).isSome = true ∧
    localExecute (fun _ => some "sleep 100") [] c4Outcome c4Step []
      = .error ("Local script execution timed out after "
          ++ toString (60 : Nat) ++ " seconds") :=
  ⟨rfl, C4_timeout_raises_error_to_caller (fun _ => some "sleep 100") []
    c4Outcome c4Step [] rfl rfl rfl rfl⟩

/-- Counterexample for C4 as stated: on a run that exceeds the timeout
the transport does not yield an ExecutionResult with success false; it
returns an error to the caller. -/
theorem C4_counterexample_timeout_returns_error :
    localExecute (fun _ => some "sleep 100") [] c4Outcome c4Step []
      = .error "Local script execution timed out after 60 seconds" ∧
    (localExecute (fun _ => some "sleep 100") [] c4Outcome c4Step []).isOk
      = false := by
  constructor
  · rfl
  · rfl

/-! ## The SSH wrapper of the engine (src/executor/mod.rs,
execute_script_via_ssh_with_realtime_output)

The spawned blocking SSH task is abstracted as one of three outcomes:
the blocking task fails to join, the SSH execution returns an error, or
it returns a result. -/

/-- Outcome of the spawned blocking SSH task. -/
inductive SpawnSshOutcome
  | joinError (msg : String)
  | runError (msg : String)
  | runOk (r : ExecutionResult)
  deriving Repr, DecidableEq

/-- RemoteExecutor::execute_script_via_ssh_with_realtime_output: a
join failure propagates as an error (the question mark on await); an SSH
execution error becomes an Ok result with success false, empty streams,
exit code 0 and an error message; an SSH result is rewrapped with
success defined as exit code equal to 0. -/
def execute_script_via_ssh (outcome : SpawnSshOutcome)
    (client : ClientConfig) (step : Step) (elapsedMs : Nat) :
    Except String ExecutionResult :=
  match client.ssh_config with
  | none =>
    .error ("SSH configuration not found for client " ++ quoted client.name)
  | some _ =>
    match outcome with
    | .joinError m => .error m
    | .runError m =>
      .ok { success := false, stdout := "", stderr := "",
            script := step.script, exit_code := 0,
            execution_time_ms := elapsedMs, error_message := some m }
    | .runOk r =>
      .ok { success := r.exit_code == 0, stdout := r.stdout,
            stderr := r.stderr, script := step.script,
            exit_code := r.exit_code, execution_time_ms := elapsedMs,
            error_message := r.error_message }

/-- C10 (amended): when the blocking SSH execution returns an error the
wrapper returns Ok with success false, empty stdout and stderr, exit
code 0 and an error message, so success false does not imply a non-zero
exit code at this interface; but a task-join failure is propagated as an
error to the caller, not converted into such a result. The success path
rewraps the transport result with success defined as exit code 0. -/
theorem C10_ssh_wrapper_error_result_shape (client : ClientConfig)
    (step : Step) (elapsedMs : Nat) (m : String) (r : ExecutionResult)
    (hssh : client.ssh_config.isSome = true) :
    execute_script_via_ssh (.runError m) client step elapsedMs
      = .ok { success := false, stdout := "", stderr := "",
              script := step.script, exit_code := 0,
              execution_time_ms := elapsedMs, error_message := some m } ∧
    execute_script_via_ssh (.joinError m) client step elapsedMs
      = .error m ∧
    execute_script_via_ssh (.runOk r) client step elapsedMs
      = .ok { success := r.exit_code == 0, stdout := r.stdout,
              stderr := r.stderr, script := step.script,
              exit_code := r.exit_code, execution_time_ms := elapsedMs,
              error_message := r.error_message } := by
  cases hc : client.ssh_config with
  | none => rw [hc] at hssh; simp at hssh
  | some sc => exact ⟨by simp [execute_script_via_ssh, hc],
      by simp [execute_script_via_ssh, hc],
      by simp [execute_script_via_ssh, hc]⟩

/-- The step of the C10 scenarios. -/
def c10Step : Step :=
  { name := "remote", title := none, script := "do.sh", servers := ["s1"],
    timeout_seconds := none, «variables» := none, extract := none }

/-- Witness for C10: on the concrete client the SSH execution error
becomes an Ok result with success false and exit code 0. -/
theorem C10_ssh_wrapper_witness :
    demoClient.ssh_config.isSome = true ∧
    execute_script_via_ssh (.runError "handshake failed") demoClient
        c10Step 7
      = .ok { success := false, stdout := "", stderr := "",
              script := "do.sh", exit_code := 0, execution_time_ms := 7,
              error_message := some "handshake failed" } :=
  ⟨rfl, (C10_ssh_wrapper_error_result_shape demoClient c10Step 7
      "handshake failed"
      { success := true, stdout := "", stderr := "", script := "",
        exit_code := 0, execution_time_ms := 0, error_message := none }
      rfl).1⟩

/-- Counterexample for C10 as stated: a task-join failure does not
produce an Ok result with success false; the wrapper returns an error. -/
theorem C10_counterexample_join_failure_is_error :
    execute_script_via_ssh (.joinError "join faield") demoClient c10Step 7
      = .error "join faield" ∧
    (execute_script_via_ssh (.joinError "join faield") demoClient
        c10Step 7).isOk = false := by
  constructor
  · rfl
  · rfl

/-! ## Pipeline engine (src/executor/mod.rs)

The engine is parametrised by an oracle supplying the effectful parts:
the regex semantics used by extraction, file existence checks, the
outcome of each per-server SSH task, the local transport, and the
elapsed-time readings. Events emitted to callbacks are side effects and
are not part of the returned values the claims are about. -/

/-- StepExecutionResult, with the title field the executor fills. -/
structure StepExecutionResult where
  title : String
  step_name : String
  server_name : String
  execution_result : ExecutionResult
  overall_success : Bool
  execution_time_ms : Nat
  deriving Repr, DecidableEq

/-- PipelineExecutionResult, with the title field the executor fills. -/
structure PipelineExecutionResult where
  title : String
  pipeline_name : String
  step_results : List StepExecutionResult
  overall_success : Bool
  total_execution_time_ms : Nat
  deriving Repr, DecidableEq

/-- ShellExecutionResult, the combined report of execute_all (its
construction site in src/executor/mod.rs fixes the fields). -/
structure ShellExecutionResult where
  success : Bool
  reason : String
  pipeline_results : List PipelineExecutionResult
  deriving Repr, DecidableEq

/-- Oracle for the effectful parts of the engine. -/
structure ExecOracle where
  sem : RegexSem
  fileExists : String → Bool
  sshRun : String → Step → VarMap → SpawnSshOutcome
  localRun : Step → VarMap → Except String ExecutionResult
  elapsedMs : Nat

/-- The body of one spawned per-server task
(RemoteExecutor::execute_script_with_realtime_output): check the script
file exists, look the client up, dispatch on the execution method. The
variable snapshot snap is the one held by the executor clone the task
was given. -/
def run_server (o : ExecOracle) (cfg : RemoteExecutionConfig) (step : Step)
    (snap : VarMap) (server : String) : Except String ExecutionResult :=
  if o.fileExists step.script = false then
    .error ("Script " ++ quoted step.script ++ " not found")
  else
    match lookupClient cfg server with
    | none =>
      .error ("Client " ++ quoted server ++ " not found in configuration")
    | some client =>
      match client.execution_method with
      | .ssh => execute_script_via_ssh (o.sshRun server step snap) client
          step o.elapsedMs
      | .websocket => .error "WebSocket execution not implemented yet"

/-- Await the spawned tasks in spawn order (join_all preserves order);
the first task error aborts the step. -/
def runServers (o : ExecOracle) (cfg : RemoteExecutionConfig) (step : Step)
    (snap : VarMap) : List String → Except String (List (String × ExecutionResult))
  | [] => .ok []
  | s :: rest =>
    match run_server o cfg step snap s with
    | .error e => .error e
    | .ok r =>
      match runServers o cfg step snap rest with
      | .error e => .error e
      | .ok more => .ok ((s, r) :: more)

/-- The membership check performed while the tasks are created: the
first server missing from the clients map aborts the step. -/
def firstMissingServer (cfg : RemoteExecutionConfig) :
    List String → Option String
  | [] => none
  | s :: rest =>
    if (lookupClient cfg s).isSome then firstMissingServer cfg rest
    else some s

/-- Per-server extraction into a fresh temporary variable manager; an
extraction error is logged and contributes nothing. -/
def perResultExtract (sem : RegexSem) (extract : Option (List ExtractRule))
    (r : ExecutionResult) : List (String × String) :=
  match extract with
  | none => []
  | some rules =>
    match extractVariables sem rules [] r with
    | .ok tv => tv
    | .error _ => []

/-- Build one StepExecutionResult the way the result loop does. -/
def mkStepResult (step : Step) (server : String) (r : ExecutionResult)
    (elapsedMs : Nat) : StepExecutionResult :=
  { title := step.title.getD step.name, step_name := step.name,
    server_name := server, execution_result := r,
    overall_success := r.success, execution_time_ms := elapsedMs }

/-- RemoteExecutor::execute_step_with_realtime_output. With no servers
the step runs locally and extraction feeds the real store directly. With
servers, the store is cloned once before the fan-out; every task gets
that snapshot extended with pipeline_name and step_name; results are
awaited in order; per-server extractions are collected in isolation and
merged into the real store only after all servers completed. -/
def execute_step (o : ExecOracle) (cfg : RemoteExecutionConfig)
    (st : VarMap) (step : Step) (pipelineName : String) :
    Except String (List StepExecutionResult × VarMap) :=
  if step.servers.isEmpty then
    let vars2 := setVar (setVar st "pipeline_name" pipelineName)
      "step_name" step.name
    match o.localRun step vars2 with
    | .error e => .error e
    | .ok r =>
      let st2 := match step.extract with
        | none => st
        | some rules =>
          match extractVariables o.sem rules st r with
          | .ok stx => stx
          | .error _ => st
      .ok ([mkStepResult step "localhost" r o.elapsedMs], st2)
  else
    match firstMissingServer cfg step.servers with
    | some s => .error ("Server " ++ quoted s ++ " not found in configuration")
    | none =>
      let snap := setVar (setVar st "pipeline_name" pipelineName)
        "step_name" step.name
      match runServers o cfg step snap step.servers with
      | .error e => .error e
      | .ok results =>
        let stepResults := results.map
          (fun pr => mkStepResult step pr.1 pr.2 o.elapsedMs)
        let extracted := results.flatMap
          (fun pr => perResultExtract o.sem step.extract pr.2)
        .ok (stepResults, mergeVars st extracted)

/-- One iteration of the step loop of
execute_pipeline_with_realtime_output: merge the step-local variables
into the store, substitute variables into the script path, run the step. -/
def run_one_step (o : ExecOracle) (cfg : RemoteExecutionConfig)
    (pipelineName : String) (st : VarMap) (step : Step) :
    Except String (List StepExecutionResult × VarMap) :=
  let st1 := mergeVars st (step.«variables».getD [])
  let stepWV := { step with script := replaceVariables st1 step.script }
  execute_step o cfg st1 stepWV pipelineName

/-- The step loop: run the steps in order, accumulate their results,
and break after the first step whose per-server results are not all
successful. -/
def run_steps (o : ExecOracle) (cfg : RemoteExecutionConfig)
    (pipelineName : String) :
    List Step → VarMap → Except String (List StepExecutionResult × VarMap)
  | [], st => .ok ([], st)
  | step :: rest, st =>
    match run_one_step o cfg pipelineName st step with
    | .error e => .error e
    | .ok (rs, st1) =>
      if rs.all (fun r => r.execution_result.success) then
        match run_steps o cfg pipelineName rest st1 with
        | .error e => .error e
        | .ok (more, st2) => .ok (rs ++ more, st2)
      else .ok (rs, st1)

/-- RemoteExecutor::execute_pipeline_with_realtime_output: find the
pipeline by name, drive its steps, and report overall success as the
conjunction of the successes of the accumulated step results. -/
def execute_pipeline (o : ExecOracle) (cfg : RemoteExecutionConfig)
    (st : VarMap) (name : String) :
    Except String (PipelineExecutionResult × VarMap) :=
  match cfg.pipelines.find? (fun p => p.name == name) with
  | none => .error ("Pipeline " ++ quoted name ++ " not found")
  | some p =>
    match run_steps o cfg p.name p.steps st with
    | .error e => .error e
    | .ok (rs, st1) =>
      .ok ({ title := p.title.getD p.name, pipeline_name := p.name,
             step_results := rs,
             overall_success := rs.all (fun r => r.execution_result.success),
             total_execution_time_ms := o.elapsedMs }, st1)

/-- The pipeline loop of execute_all_pipelines_with_realtime_output:
run the pipelines in config order and break after the first one whose
overall_success is false; a pipeline error aborts the whole run. -/
def run_pipelines (o : ExecOracle) (cfg : RemoteExecutionConfig) :
    List String → VarMap → Except String (List PipelineExecutionResult × VarMap)
  | [], st => .ok ([], st)
  | n :: rest, st =>
    match execute_pipeline o cfg st n with
    | .error e => .error e
    | .ok (r, st1) =>
      if r.overall_success then
        match run_pipelines o cfg rest st1 with
        | .error e => .error e
        | .ok (more, st2) => .ok (r :: more, st2)
      else .ok ([r], st1)

/-- RemoteExecutor::execute_all_pipelines_with_realtime_output: run the
pipelines and wrap the accumulated results in a ShellExecutionResult
whose success field is the literal true and whose reason is ok. -/
def execute_all_pipelines (o : ExecOracle) (cfg : RemoteExecutionConfig)
    (st : VarMap) : Except String (ShellExecutionResult × VarMap) :=
  match run_pipelines o cfg (cfg.pipelines.map Pipeline.name) st with
  | .error e => .error e
  | .ok (rs, st1) =>
    .ok ({ success := true, reason := "ok", pipeline_results := rs }, st1)

/-! ## Run relations describing the engine loops -/

/-- PipeRun names st rs st2 says: running the named pipelines in order
from store st produces exactly the reports rs and final store st2,
stopping right after the first pipeline whose overall_success is false. -/
inductive PipeRun (o : ExecOracle) (cfg : RemoteExecutionConfig) :
    List String → VarMap → List PipelineExecutionResult → VarMap → Prop
  | nil (st : VarMap) : PipeRun o cfg [] st [] st
  | consOk (n : String) (rest : List String) (st st1 st2 : VarMap)
      (r : PipelineExecutionResult) (rs : List PipelineExecutionResult)
      (hr : execute_pipeline o cfg st n = .ok (r, st1))
      (hs : r.overall_success = true)
      (hrest : PipeRun o cfg rest st1 rs st2) :
      PipeRun o cfg (n :: rest) st (r :: rs) st2
  | consFail (n : String) (rest : List String) (st st1 : VarMap)
      (r : PipelineExecutionResult)
      (hr : execute_pipeline o cfg st n = .ok (r, st1))
      (hs : r.overall_success = false) :
      PipeRun o cfg (n :: rest) st [r] st1

/-- StepRun steps st rs st2 says: running the steps in order from store
st produces exactly the per-server results rs and final store st2,
stopping right after the first step whose results are not all
successful; the steps after it contribute nothing. -/
inductive StepRun (o : ExecOracle) (cfg : RemoteExecutionConfig)
    (pipelineName : String) :
    List Step → VarMap → List StepExecutionResult → VarMap → Prop
  | nil (st : VarMap) : StepRun o cfg pipelineName [] st [] st
  | consOk (step : Step) (rest : List Step) (st st1 st2 : VarMap)
      (rs more : List StepExecutionResult)
      (hr : run_one_step o cfg pipelineName st step = .ok (rs, st1))
      (hs : rs.all (fun r => r.execution_result.success) = true)
      (hrest : StepRun o cfg pipelineName rest st1 more st2) :
      StepRun o cfg pipelineName (step :: rest) st (rs ++ more) st2
  | consFail (step : Step) (rest : List Step) (st st1 : VarMap)
      (rs : List StepExecutionResult)
      (hr : run_one_step o cfg pipelineName st step = .ok (rs, st1))
      (hs : rs.all (fun r => r.execution_result.success) = false) :
      StepRun o cfg pipelineName (step :: rest) st rs st1

theorem run_steps_toStepRun (o : ExecOracle) (cfg : RemoteExecutionConfig)
    (pn : String) : ∀ (steps : List Step) (st : VarMap)
      (rs : List StepExecutionResult) (st2 : VarMap),
      run_steps o cfg pn steps st = .ok (rs, st2) →
      StepRun o cfg pn steps st rs st2 := by
  intro steps
  induction steps with
  | nil =>
    intro st rs st2 h
    simp only [run_steps, Except.ok.injEq, Prod.mk.injEq] at h
    rw [← h.1, ← h.2]
    exact StepRun.nil st
  | cons step rest ih =>
    intro st rs st2 h
    cases h1 : run_one_step o cfg pn st step with
    | error e => simp [run_steps, h1] at h
    | ok pr =>
      obtain ⟨rs1, st1⟩ := pr
      cases hall : rs1.all (fun r => r.execution_result.success) with
      | true =>
        cases h2 : run_steps o cfg pn rest st1 with
        | error e => simp [run_steps, h1, hall, h2] at h
        | ok pr2 =>
          obtain ⟨more, st3⟩ := pr2
          simp only [run_steps, h1, hall, h2, if_true, Except.ok.injEq,
            Prod.mk.injEq] at h
          rw [← h.1, ← h.2]
          exact StepRun.consOk step rest st st1 st3 rs1 more h1 hall
            (ih st1 more st3 h2)
      | false =>
        simp only [run_steps, h1, hall, Bool.false_eq_true, if_false,
          Except.ok.injEq, Prod.mk.injEq] at h
        rw [← h.1, ← h.2]
        exact StepRun.consFail step rest st st1 rs1 h1 hall

theorem run_pipelines_toPipeRun (o : ExecOracle)
    (cfg : RemoteExecutionConfig) : ∀ (names : List String) (st : VarMap)
      (rs : List PipelineExecutionResult) (st2 : VarMap),
      run_pipelines o cfg names st = .ok (rs, st2) →
      PipeRun o cfg names st rs st2 := by
  intro names
  induction names with
  | nil =>
    intro st rs st2 h
    simp only [run_pipelines, Except.ok.injEq, Prod.mk.injEq] at h
    rw [← h.1, ← h.2]
    exact PipeRun.nil st
  | cons n rest ih =>
    intro st rs st2 h
    cases h1 : execute_pipeline o cfg st n with
    | error e => simp [run_pipelines, h1] at h
    | ok pr =>
      obtain ⟨r, st1⟩ := pr
      cases hs : r.overall_success with
      | true =>
        cases h2 : run_pipelines o cfg rest st1 with
        | error e => simp [run_pipelines, h1, hs, h2] at h
        | ok pr2 =>
          obtain ⟨more, st3⟩ := pr2
          simp only [run_pipelines, h1, hs, h2, if_true, Except.ok.injEq,
            Prod.mk.injEq] at h
          rw [← h.1, ← h.2]
          exact PipeRun.consOk n rest st st1 st3 r more h1 hs
            (ih st1 more st3 h2)
      | false =>
        simp only [run_pipelines, h1, hs, Bool.false_eq_true, if_false,
          Except.ok.injEq, Prod.mk.injEq] at h
        rw [← h.1, ← h.2]
        exact PipeRun.consFail n rest st st1 r h1 hs

/-- C1 (amended): execute_all runs the pipelines in config order and
stops right after the first pipeline whose overall_success is false, but
the combined report always carries success true and reason ok, even when
a pipeline in the report failed; success is not equivalent to all
pipelines having succeeded. -/
theorem C1_execute_all_order_stop_success_always_true (o : ExecOracle)
    (cfg : RemoteExecutionConfig) (st : VarMap)
    (out : ShellExecutionResult) (st2 : VarMap)
    (h : execute_all_pipelines o cfg st = .ok (out, st2)) :
    out.success = true ∧ out.reason = "ok" ∧
    PipeRun o cfg (cfg.pipelines.map Pipeline.name) st
      out.pipeline_results st2 := by
  cases h1 : run_pipelines o cfg (cfg.pipelines.map Pipeline.name) st with
  | error e => simp [execute_all_pipelines, h1] at h
  | ok pr =>
    obtain ⟨rs, st1⟩ := pr
    simp only [execute_all_pipelines, h1, Except.ok.injEq,
      Prod.mk.injEq] at h
    rw [← h.1, ← h.2]
    exact ⟨rfl, rfl, run_pipelines_toPipeRun o cfg _ st rs st1 h1⟩

/-- C2: when execute_pipeline returns a report, overall_success is the
conjunction of the successes of the accumulated per-server results; the
steps were run in order from the pipeline found under the given name and
the run stopped right after the first step whose per-server results were
not all successful, with no later step contributing results; in
particular a failed step forces overall_success false. -/
theorem C2_pipeline_stops_after_first_failed_step (o : ExecOracle)
    (cfg : RemoteExecutionConfig) (st : VarMap) (name : String)
    (res : PipelineExecutionResult) (st2 : VarMap)
    (h : execute_pipeline o cfg st name = .ok (res, st2)) :
    res.overall_success
        = res.step_results.all (fun r => r.execution_result.success) ∧
    (res.step_results.all (fun r => r.execution_result.success) = false →
      res.overall_success = false) ∧
    ∃ p, cfg.pipelines.find? (fun q => q.name == name) = some p ∧
      res.pipeline_name = p.name ∧
      StepRun o cfg p.name p.steps st res.step_results st2 := by
  cases hf : cfg.pipelines.find? (fun q => q.name == name) with
  | none => simp [execute_pipeline, hf] at h
  | some p =>
    cases h1 : run_steps o cfg p.name p.steps st with
    | error e => simp [execute_pipeline, hf, h1] at h
    | ok pr =>
      obtain ⟨rs, st1⟩ := pr
      simp only [execute_pipeline, hf, h1, Except.ok.injEq,
        Prod.mk.injEq] at h
      rw [← h.1, ← h.2]
      refine ⟨rfl, fun hfail => hfail, p, rfl, rfl,
        run_steps_toStepRun o cfg p.name p.steps st rs st1 h1⟩

theorem runServers_spec (o : ExecOracle) (cfg : RemoteExecutionConfig)
    (step : Step) (snap : VarMap) : ∀ (servers : List String)
      (results : List (String × ExecutionResult)),
      runServers o cfg step snap servers = .ok results →
      List.Forall₂ (fun s pr => pr.1 = s ∧
        run_server o cfg step snap s = .ok pr.2) servers results := by
  intro servers
  induction servers with
  | nil =>
    intro results h
    simp only [runServers, Except.ok.injEq] at h
    rw [← h]
    exact List.Forall₂.nil
  | cons s rest ih =>
    intro results h
    cases h1 : run_server o cfg step snap s with
    | error e => simp [runServers, h1] at h
    | ok r =>
      cases h2 : runServers o cfg step snap rest with
      | error e => simp [runServers, h1, h2] at h
      | ok more =>
        simp only [runServers, h1, h2, Except.ok.injEq] at h
        rw [← h]
        exact List.Forall₂.cons ⟨rfl, h1⟩ (ih more h2)

/-- C7: for a step with a nonempty servers list, each per-server task is
run against the same snapshot, namely the pre-step store extended with
pipeline_name and step_name; the produced results pair up with the
servers in order; and the final store is the pre-step store with the
per-server extracted pairs merged in only after all servers completed. -/
theorem C7_step_snapshot_isolation_and_post_merge (o : ExecOracle)
    (cfg : RemoteExecutionConfig) (st : VarMap) (step : Step)
    (pipelineName : String) (rs : List StepExecutionResult) (st2 : VarMap)
    (hs : step.servers ≠ [])
    (h : execute_step o cfg st step pipelineName = .ok (rs, st2)) :
    ∃ results : List (String × ExecutionResult),
      List.Forall₂ (fun s pr => pr.1 = s ∧
          run_server o cfg step
            (setVar (setVar st "pipeline_name" pipelineName)
              "step_name" step.name) s = .ok pr.2)
        step.servers results ∧
      rs = results.map (fun pr => mkStepResult step pr.1 pr.2 o.elapsedMs) ∧
      st2 = mergeVars st (results.flatMap
        (fun pr => perResultExtract o.sem step.extract pr.2)) := by
  have hne : step.servers.isEmpty = false := by
    cases hsv : step.servers with
    | nil => exact absurd hsv hs
    | cons a l => rfl
  cases hm : firstMissingServer cfg step.servers with
  | some s => simp [execute_step, hne, hm] at h
  | none =>
    cases hr : runServers o cfg step
        (setVar (setVar st "pipeline_name" pipelineName)
          "step_name" step.name) step.servers with
    | error e => simp [execute_step, hne, hm, hr] at h
    | ok results =>
      simp only [execute_step, hne, Bool.false_eq_true, if_false, hm, hr,
        Except.ok.injEq, Prod.mk.injEq] at h
      exact ⟨results, runServers_spec o cfg step _ step.servers results hr,
        h.1.symm, h.2.symm⟩

/-! ## Concrete engine scenarios for the C1, C2 and C7 claims -/

/-- A one-server step used by the concrete engine scenarios. -/
def demoStepA : Step :=
  { name := "a", title := none, script := "a.sh", servers := ["s1"],
    timeout_seconds := none, «variables» := none, extract := none }

/-- A transport result with a non-zero exit code. -/
def failResult : ExecutionResult :=
  { success := false, stdout := "boom", stderr := "", script := "a.sh",
    exit_code := 1, execution_time_ms := 2, error_message := none }

/-- A transport result with exit code zero. -/
def okResult : ExecutionResult :=
  { success := true, stdout := "fine", stderr := "", script := "a.sh",
    exit_code := 0, execution_time_ms := 2, error_message := none }

/-- Oracle of the C1 scenario: every SSH run exits 1. -/
def c1Oracle : ExecOracle :=
  { sem := fun _ => none, fileExists := fun _ => true,
    sshRun := fun _ _ _ => .runOk failResult,
    localRun := fun _ _ => .error "unused", elapsedMs := 3 }

/-- Configuration of the C1 scenario: two pipelines; the first fails, so
the second must not run. -/
def c1Cfg : RemoteExecutionConfig :=
  { «variables» := none, clients := [("s1", demoClient)],
    pipelines := [{ name := "p1", title := none, steps := [demoStepA] },
                  { name := "p2", title := none, steps := [demoStepA] }],
    default_timeout := none }

/-- The failing per-server result of the C1 scenario, as rewrapped by
the engine. -/
def c1StepRes : StepExecutionResult :=
  { title := "a", step_name := "a", server_name := "s1",
    execution_result :=
      { success := false, stdout := "boom", stderr := "",
        script := "a.sh", exit_code := 1, execution_time_ms := 3,
        error_message := none },
    overall_success := false, execution_time_ms := 3 }

/-- The report execute_all produces for the failing first pipeline. -/
def c1FailRes : PipelineExecutionResult :=
  { title := "p1", pipeline_name := "p1", step_results := [c1StepRes],
    overall_success := false, total_execution_time_ms := 3 }

/-- The combined report of the C1 scenario. -/
def c1Out : ShellExecutionResult :=
  { success := true, reason := "ok", pipeline_results := [c1FailRes] }

/-- Witness for C1: on the two-pipeline scenario whose first pipeline
fails, the run stops after that pipeline and the report still carries
success true. -/
theorem C1_execute_all_witness :
    c1Out.success = true ∧ c1Out.reason = "ok" ∧
    PipeRun c1Oracle c1Cfg (c1Cfg.pipelines.map Pipeline.name) []
      c1Out.pipeline_results [] :=
  C1_execute_all_order_stop_success_always_true c1Oracle c1Cfg [] c1Out []
    (by decide)

/-- Counterexample for C1 as stated: the combined report has success
true although the only pipeline report in it failed, so success is not
equivalent to every pipeline in the report having succeeded. -/
theorem C1_counterexample_success_true_despite_failure :
    (execute_all_pipelines c1Oracle c1Cfg []).map
        (fun p => (p.1.success,
          p.1.pipeline_results.all (fun r => r.overall_success)))
      = .ok (true, false) := by decide

/-- First step of the C2 scenario; its SSH run exits 1. -/
def c2StepOne : Step :=
  { name := "one", title := none, script := "one.sh", servers := ["s1"],
    timeout_seconds := none, «variables» := none, extract := none }

/-- Second step of the C2 scenario; it would succeed but must not run. -/
def c2StepTwo : Step :=
  { name := "two", title := none, script := "two.sh", servers := ["s1"],
    timeout_seconds := none, «variables» := none, extract := none }

/-- Oracle of the C2 scenario: the step named one fails, all else is
fine. -/
def c2Oracle : ExecOracle :=
  { sem := fun _ => none, fileExists := fun _ => true,
    sshRun := fun _ step _ =>
      if step.name = "one" then .runOk failResult else .runOk okResult,
    localRun := fun _ _ => .error "unused", elapsedMs := 3 }

/-- Configuration of the C2 scenario. -/
def c2Cfg : RemoteExecutionConfig :=
  { «variables» := none, clients := [("s1", demoClient)],
    pipelines := [{ name := "p", title := none,
                    steps := [c2StepOne, c2StepTwo] }],
    default_timeout := none }

/-- The per-server result of the failing first step of the C2 scenario. -/
def c2StepRes : StepExecutionResult :=
  { title := "one", step_name := "one", server_name := "s1",
    execution_result :=
      { success := false, stdout := "boom", stderr := "",
        script := "one.sh", exit_code := 1, execution_time_ms := 3,
        error_message := none },
    overall_success := false, execution_time_ms := 3 }

/-- The report of the C2 scenario: results stop at the failed first
step and overall_success is false. -/
def c2Res : PipelineExecutionResult :=
  { title := "p", pipeline_name := "p", step_results := [c2StepRes],
    overall_success := false, total_execution_time_ms := 3 }

/-- Witness for C2: the two-step pipeline whose first step fails stops
there; the report holds results for the first step only and
overall_success false. -/
theorem C2_pipeline_witness :
    c2Res.overall_success
        = c2Res.step_results.all (fun r => r.execution_result.success) ∧
    (c2Res.step_results.all (fun r => r.execution_result.success) = false →
      c2Res.overall_success = false) ∧
    ∃ p, c2Cfg.pipelines.find? (fun q => q.name == "p") = some p ∧
      c2Res.pipeline_name = p.name ∧
      StepRun c2Oracle c2Cfg p.name p.steps [] c2Res.step_results [] :=
  C2_pipeline_stops_after_first_failed_step c2Oracle c2Cfg [] "p" c2Res []
    (by decide)

/-- A second SSH client for the C7 scenario. -/
def demoClient2 : ClientConfig :=
  { name := "s2", execution_method := .ssh,
    ssh_config := some demoSsh, websocket_config := none }

/-- Extraction rule of the C7 scenario. -/
def c7Rule : ExtractRule :=
  { name := "ver", patterns := ["v=(\\d+)"], source := "stdout",
    cascade := true }

/-- Two-server step with extraction for the C7 scenario. -/
def c7Step : Step :=
  { name := "s7", title := none, script := "x.sh", servers := ["s1", "s2"],
    timeout_seconds := none, «variables» := none,
    extract := some [c7Rule] }

/-- Regex semantics of the C7 scenario. -/
def c7Sem : RegexSem := fun p =>
  if p = "v=(\\d+)" then
    some (fun s =>
      if s = "v=1\n" then some ⟨some "v=1", some "1"⟩
      else if s = "v=2\n" then some ⟨some "v=2", some "2"⟩
      else none)
  else none

/-- Transport result of server s1 in the C7 scenario. -/
def c7Out1 : ExecutionResult :=
  { success := true, stdout := "v=1\n", stderr := "", script := "x.sh",
    exit_code := 0, execution_time_ms := 2, error_message := none }

/-- Transport result of server s2 in the C7 scenario. -/
def c7Out2 : ExecutionResult :=
  { success := true, stdout := "v=2\n", stderr := "", script := "x.sh",
    exit_code := 0, execution_time_ms := 2, error_message := none }

/-- Oracle of the C7 scenario. -/
def c7Oracle : ExecOracle :=
  { sem := c7Sem, fileExists := fun _ => true,
    sshRun := fun server _ _ =>
      if server = "s1" then .runOk c7Out1 else .runOk c7Out2,
    localRun := fun _ _ => .error "unused", elapsedMs := 4 }

/-- Configuration of the C7 scenario. -/
def c7Cfg : RemoteExecutionConfig :=
  { «variables» := none,
    clients := [("s1", demoClient), ("s2", demoClient2)],
    pipelines := [{ name := "pl", title := none, steps := [c7Step] }],
    default_timeout := none }

/-- The per-server result of server s1 in the C7 scenario. -/
def c7Res1 : StepExecutionResult :=
  { title := "s7", step_name := "s7", server_name := "s1",
    execution_result :=
      { success := true, stdout := "v=1\n", stderr := "",
        script := "x.sh", exit_code := 0, execution_time_ms := 4,
        error_message := none },
    overall_success := true, execution_time_ms := 4 }

/-- The per-server result of server s2 in the C7 scenario. -/
def c7Res2 : StepExecutionResult :=
  { title := "s7", step_name := "s7", server_name := "s2",
    execution_result :=
      { success := true, stdout := "v=2\n", stderr := "",
        script := "x.sh", exit_code := 0, execution_time_ms := 4,
        error_message := none },
    overall_success := true, execution_time_ms := 4 }

/-- The per-server results of the C7 scenario. -/
def c7Rs : List StepExecutionResult := [c7Res1, c7Res2]

/-- Witness for C7: both servers of the step receive the same pre-step
snapshot, the results pair up with the servers, and the store afterwards
is the pre-step store with both extractions merged (the later server
wins on the shared key). -/
theorem C7_step_witness :
    ∃ results : List (String × ExecutionResult),
      List.Forall₂ (fun s pr => pr.1 = s ∧
          run_server c7Oracle c7Cfg c7Step
            (setVar (setVar [] "pipeline_name" "pl")
              "step_name" c7Step.name) s = .ok pr.2)
        c7Step.servers results ∧
      c7Rs = results.map
        (fun pr => mkStepResult c7Step pr.1 pr.2 c7Oracle.elapsedMs) ∧
      [("ver", "2")] = mergeVars [] (results.flatMap
        (fun pr => perResultExtract c7Oracle.sem c7Step.extract pr.2)) :=
  C7_step_snapshot_isolation_and_post_merge c7Oracle c7Cfg [] c7Step "pl"
    c7Rs [("ver", "2")] (by decide) (by decide)

/-! ## Template engine (src/template.rs)

The three regexes the engine builds from its delimiters are modelled by
deterministic scanners over character lists. Determinism is faithful
because the character classes of adjacent regex pieces are disjoint
(whitespace, identifier characters, literal delimiters), so the regex
backtracking can never produce a different match than the greedy scan. -/

/-- The regex class backslash-s (whitespace). -/
def isWs (c : Char) : Bool := c.isWhitespace

/-- The class [a-zA-Z_] opening an identifier. -/
def isIdentStart (c : Char) : Bool := c.isAlpha || c = '_'

/-- The class [a-zA-Z0-9_] continuing an identifier; also stands for the
class backslash-w of the for-loop regex. -/
def isIdentChar (c : Char) : Bool := c.isAlphanum || c = '_'

/-- Match a literal prefix and return the remainder. -/
def dropPrefixChars : List Char → List Char → Option (List Char)
  | [], s => some s
  | _, [] => none
  | p :: ps, c :: cs => if p = c then dropPrefixChars ps cs else none

/-- The regex piece backslash-s-plus: at least one whitespace character. -/
def skipWs1 (s : List Char) : Option (List Char) :=
  match s with
  | c :: rest => if isWs c then some (rest.dropWhile isWs) else none
  | [] => none

/-- One identifier [a-zA-Z_][a-zA-Z0-9_]* (also used for backslash-w-plus,
restricted to ASCII word characters). -/
def takeIdent (s : List Char) : Option (List Char × List Char) :=
  match s with
  | c :: rest =>
    if isIdentStart c then
      let (seg, r) := rest.span isIdentChar
      some (c :: seg, r)
    else none
  | [] => none

/-- The dotted segments (dot identifier)* of a variable path. -/
def takeDotSegs : Nat → List Char → (List Char × List Char)
  | 0, s => ([], s)
  | fuel + 1, s =>
    match s with
    | '.' :: c :: rest =>
      if isIdentStart c then
        let (seg, r) := rest.span isIdentChar
        let (more, r2) := takeDotSegs fuel r
        ('.' :: c :: (seg ++ more), r2)
      else ([], s)
    | _ => ([], s)

/-- Match the variable regex at the head of s: left delimiter,
whitespace, dotted identifier path, whitespace, right delimiter.
Returns the full match, the captured path, and the remainder. -/
def matchVarAt (vl vr s : List Char) :
    Option (List Char × List Char × List Char) := do
  let r1 ← dropPrefixChars vl s
  let r2 := r1.dropWhile isWs
  let (id0, r3) ← takeIdent r2
  let (segs, r4) := takeDotSegs r3.length r3
  let r5 := r4.dropWhile isWs
  let r6 ← dropPrefixChars vr r5
  some (s.take (s.length - r6.length), id0 ++ segs, r6)

/-- Leftmost match of the variable regex: Regex::captures. -/
def findVarMatch (vl vr : List Char) : List Char → Option (List Char × List Char)
  | [] =>
    match matchVarAt vl vr [] with
    | some (full, path, _) => some (full, path)
    | none => none
  | c :: rest =>
    match matchVarAt vl vr (c :: rest) with
    | some (full, path, _) => some (full, path)
    | none => findVarMatch vl vr rest

/-- Match the include regex at the head of s: block-left delimiter,
whitespace, the word include, whitespace, a quoted nonempty name,
whitespace, block-right delimiter. Returns full match, name, remainder. -/
def matchIncludeAt (fl fr s : List Char) :
    Option (List Char × List Char × List Char) := do
  let r1 ← dropPrefixChars fl s
  let r2 := r1.dropWhile isWs
  let r3 ← dropPrefixChars "include".data r2
  let r4 ← skipWs1 r3
  let r5 ← dropPrefixChars "\"".data r4
  let (name, r6) := r5.span (fun c => ¬ c = '"')
  if name.isEmpty then none
  else do
    let r7 ← dropPrefixChars "\"".data r6
    let r8 := r7.dropWhile isWs
    let r9 ← dropPrefixChars fr r8
    some (s.take (s.length - r9.length), name, r9)

/-- Leftmost match of the include regex. -/
def findIncludeMatch (fl fr : List Char) :
    List Char → Option (List Char × List Char)
  | [] =>
    match matchIncludeAt fl fr [] with
    | some (full, name, _) => some (full, name)
    | none => none
  | c :: rest =>
    match matchIncludeAt fl fr (c :: rest) with
    | some (full, name, _) => some (full, name)
    | none => findIncludeMatch fl fr rest

/-- The optional split part of the for-loop header: whitespace, the word
split, whitespace, a quoted nonempty literal delimiter. -/
def splitPart (s : List Char) : Option (List Char × List Char) := do
  let r1 ← skipWs1 s
  let r2 ← dropPrefixChars "split".data r1
  let r3 ← skipWs1 r2
  let r4 ← dropPrefixChars "\"".data r3
  let (delim, r5) := r4.span (fun c => ¬ c = '"')
  if delim.isEmpty then none
  else do
    let r6 ← dropPrefixChars "\"".data r5
    some (delim, r6)

/-- Match the for-loop header at the head of s: block-left delimiter,
whitespace, for, item word, in, array word, optional split part,
whitespace, block-right delimiter. Returns item name, array name,
optional split delimiter and the remainder after the header. -/
def matchForHeadAt (fl fr s : List Char) :
    Option (List Char × List Char × Option (List Char) × List Char) := do
  let r1 ← dropPrefixChars fl s
  let r2 := r1.dropWhile isWs
  let r3 ← dropPrefixChars "for".data r2
  let r4 ← skipWs1 r3
  let (item, r5) ← takeIdent r4
  let r6 ← skipWs1 r5
  let r7 ← dropPrefixChars "in".data r6
  let r8 ← skipWs1 r7
  let (arr, r9) ← takeIdent r8
  match splitPart r9 with
  | some (delim, r10) =>
    let r11 := r10.dropWhile isWs
    let r12 ← dropPrefixChars fr r11
    some (item, arr, some delim, r12)
  | none =>
    let r11 := r9.dropWhile isWs
    let r12 ← dropPrefixChars fr r11
    some (item, arr, none, r12)

/-- Match the endfor marker at the head of s: block-left delimiter,
whitespace, endfor, whitespace, block-right delimiter. -/
def matchEndforAt (fl fr s : List Char) : Option (List Char) := do
  let r1 ← dropPrefixChars fl s
  let r2 := r1.dropWhile isWs
  let r3 ← dropPrefixChars "endfor".data r2
  let r4 := r3.dropWhile isWs
  dropPrefixChars fr r4

/-- The lazy dot-star of the for-loop regex: the body runs to the
earliest following endfor marker. Returns the body and the remainder
after the marker. -/
def findEndfor (fl fr : List Char) : List Char → Option (List Char × List Char)
  | [] =>
    match matchEndforAt fl fr [] with
    | some rest => some ([], rest)
    | none => none
  | c :: rest =>
    match matchEndforAt fl fr (c :: rest) with
    | some r => some ([], r)
    | none =>
      match findEndfor fl fr rest with
      | some (body, r) => some (c :: body, r)
      | none => none

/-- Leftmost match of the whole for-loop regex: the first position where
the header matches and an endfor marker follows. Returns the full match,
item name, array name, optional split delimiter, and the body. -/
def findForMatch (fl fr : List Char) :
    List Char → Option (List Char × List Char × List Char × Option (List Char) × List Char)
  | [] => none
  | c :: rest =>
    match matchForHeadAt fl fr (c :: rest) with
    | some (item, arr, delim?, afterHead) =>
      match findEndfor fl fr afterHead with
      | some (body, afterAll) =>
        some ((c :: rest).take ((c :: rest).length - afterAll.length),
          item, arr, delim?, body)
      | none => findForMatch fl fr rest
    | none => findForMatch fl fr rest

/-! ### The template value model (serde_json::Value) -/

/-- The subset of serde_json::Value the engine stores in its scope. -/
inductive Json where
  | str (s : String)
  | num (n : Int)
  | bool (b : Bool)
  | null
  | arr (items : List Json)
  | obj (fields : List (String × Json))
  deriving Repr

/-- Escaping of quote and backslash inside a serialized JSON string. -/
def jsonEscapeStr (s : String) : String :=
  ⟨s.data.flatMap (fun c =>
    if c = '"' then ['\\', '"']
    else if c = '\\' then ['\\', '\\']
    else [c])⟩

mutual

/-- Compact serde_json serialization, used when a non-string value is
substituted for a variable. -/
def jsonToString : Json → String
  | .str s => "\"" ++ jsonEscapeStr s ++ "\""
  | .num n => toString n
  | .bool b => if b then "true" else "false"
  | .null => "null"
  | .arr items => "[" ++ jsonListToString items ++ "]"
  | .obj fields => "\x7b" ++ jsonObjToString fields ++ "\x7d"

/-- Comma-separated serialization of array elements. -/
def jsonListToString : List Json → String
  | [] => ""
  | [x] => jsonToString x
  | x :: y :: xs => jsonToString x ++ "," ++ jsonListToString (y :: xs)

/-- Comma-separated serialization of object fields. -/
def jsonObjToString : List (String × Json) → String
  | [] => ""
  | [(k, v)] => "\"" ++ jsonEscapeStr k ++ "\":" ++ jsonToString v
  | (k, v) :: f :: fs =>
    "\"" ++ jsonEscapeStr k ++ "\":" ++ jsonToString v ++ ","
      ++ jsonObjToString (f :: fs)

end

/-- The stringification at the substitution site of process_variables:
strings verbatim, everything else in compact serialized form. -/
def valueStr : Json → String
  | .str s => s
  | v => jsonToString v

/-- HashMap::get on a scope of JSON values. -/
def jsonLookup : List (String × Json) → String → Option Json
  | [], _ => none
  | (k, v) :: rest, key => if k = key then some v else jsonLookup rest key

/-- HashMap::insert on a scope of JSON values. -/
def setJson : List (String × Json) → String → Json → List (String × Json)
  | [], k, v => [(k, v)]
  | (k0, v0) :: rest, k, v =>
    if k0 = k then (k, v) :: rest else (k0, v0) :: setJson rest k v

/-- Rust str::split with a literal nonempty delimiter, keeping empty
pieces. The fuel is the string length, which suffices because every
round consumes at least one character. -/
def splitOnStrAux (delim : List Char) : Nat → List Char → List Char → List (List Char)
  | _, acc, [] => [acc.reverse]
  | 0, acc, s => [acc.reverse ++ s]
  | fuel + 1, acc, c :: rest =>
    if delim.isPrefixOf (c :: rest) then
      acc.reverse :: splitOnStrAux delim fuel [] ((c :: rest).drop delim.length)
    else
      splitOnStrAux delim fuel (c :: acc) rest

/-- Rust str::split with a literal delimiter (the empty delimiter never
occurs: the regex requires a nonempty one). -/
def splitOnStr (delim s : List Char) : List (List Char) :=
  if delim.isEmpty then [s] else splitOnStrAux delim s.length [] s

/-- Rust str::lines, used by the newline-collapsing loop mode: split on
line feed, strip one trailing carriage return per line, and drop the
final empty piece a trailing line feed would create. The accumulator is
kept reversed. -/
def splitLinesAux : List Char → List Char → List (List Char)
  | acc, [] => [stripCr acc]
  | acc, c :: rest =>
    if c = '\n' then
      match rest with
      | [] => [stripCr acc]
      | _ => stripCr acc :: splitLinesAux [] rest
    else splitLinesAux (c :: acc) rest
where
  stripCr : List Char → List Char
    | '\r' :: t => t.reverse
    | l => l.reverse

/-- Rust str::lines on a whole string. -/
def splitLines : List Char → List (List Char)
  | [] => []
  | s => splitLinesAux [] s

/-- TemplateEngine: the scope, the optional template directory (modelled
as a read function carrying the io error text), the two delimiter pairs,
and the newline-preservation flag. The compiled regexes of the Rust
struct are determined by the delimiters. -/
structure TemplateEngine where
  «variables» : List (String × Json)
  templateDir : Option (String → Except String String)
  varLeft : String
  varRight : String
  forLeft : String
  forRight : String
  preserveLoopNewlines : Bool

/-- TemplateEngine::new via with_all_delimiters with the default
delimiter pairs and preserve_loop_newlines true. -/
def TemplateEngine.new (vars : List (String × Json)) : TemplateEngine :=
  { «variables» := vars, templateDir := none,
    varLeft := "\x7b\x7b", varRight := "\x7d\x7d",
    forLeft := "\x7b%", forRight := "%\x7d",
    preserveLoopNewlines := true }

/-- Split a captured variable path on the dots. -/
def splitDots (s : List Char) : List String :=
  (splitOnStr ['.'] s).map (fun l => ⟨l⟩)

/-- The descent loop of TemplateEngine::get_variable_value. -/
def descendPath : Json → List String → Except String Json
  | v, [] => .ok v
  | .obj fields, p :: rest =>
    match jsonLookup fields p with
    | none => .error ("Property " ++ quoted p ++ " not found in variable")
    | some v => descendPath v rest
  | _, p :: _ =>
    .error ("Cannot access property " ++ quoted p ++ " on non-object value")

/-- TemplateEngine::get_variable_value: split the dotted path, look the
head up in the scope, descend through object fields. -/
def getVariableValue (vars : List (String × Json)) (path : String) :
    Except String Json :=
  match splitDots path.data with
  | [] => .error "Empty variable path"
  | p0 :: rest =>
    match jsonLookup vars p0 with
    | none => .error ("Variable " ++ quoted p0 ++ " not found")
    | some v => descendPath v rest

/-- TemplateEngine::process_variables: while the variable regex matches
the current text, resolve the captured path, replace every occurrence of
the full match by the stringified value, and scan the resulting text
again. The fuel bounds the while loop; none models non-termination. -/
def processVariables (eng : TemplateEngine) :
    Nat → String → Option (Except String String)
  | 0, _ => none
  | fuel + 1, tmpl =>
    match findVarMatch eng.varLeft.data eng.varRight.data tmpl.data with
    | none => some (.ok tmpl)
    | some (full, path) =>
      match getVariableValue eng.«variables» ⟨path⟩ with
      | .error e => some (.error e)
      | .ok v =>
        processVariables eng fuel (strReplace tmpl ⟨full⟩ (valueStr v))

/-- TemplateEngine::process_includes: while the include regex matches,
read the named template (a missing template directory is an error) and
replace every occurrence of the full match by the file contents. -/
def processIncludes (eng : TemplateEngine) :
    Nat → String → Option (Except String String)
  | 0, _ => none
  | fuel + 1, tmpl =>
    match findIncludeMatch eng.forLeft.data eng.forRight.data tmpl.data with
    | none => some (.ok tmpl)
    | some (full, name) =>
      match eng.templateDir with
      | none =>
        some (.error ("Template directory not set for include: "
          ++ (⟨name⟩ : String)))
      | some readTemplate =>
        match readTemplate ⟨name⟩ with
        | .error e =>
          some (.error ("Failed to include template "
            ++ quoted ⟨name⟩ ++ ": " ++ e))
        | .ok content => processIncludes eng fuel (strReplace tmpl ⟨full⟩ content)

/-- The per-item loop of TemplateEngine::process_for_loops: extend the
scope with the loop variable, render the body through process_variables,
optionally collapse whitespace-only lines, and append to the
accumulated loop result. -/
def renderItemsAux (eng : TemplateEngine) (fuel : Nat) (itemName : String)
    (body : String) : List Json → String → Option (Except String String)
  | [], acc => some (.ok acc)
  | item :: rest, acc =>
    let tempEng := { eng with
      «variables» := setJson eng.«variables» itemName item }
    match processVariables tempEng fuel body with
    | none => none
    | some (.error e) => some (.error e)
    | some (.ok rendered) =>
      if eng.preserveLoopNewlines then
        renderItemsAux eng fuel itemName body rest (acc ++ rendered)
      else
        let lines := (splitLines rendered.data).filter
          (fun l => ¬ (l.dropWhile isWs).isEmpty)
        if lines.isEmpty then
          renderItemsAux eng fuel itemName body rest acc
        else
          let rendered2 : String := ⟨List.intercalate ['\n'] lines⟩
          let acc2 :=
            if acc.isEmpty then acc ++ rendered2
            else acc ++ "\n" ++ rendered2
          renderItemsAux eng fuel itemName body rest acc2

/-- TemplateEngine::process_for_loops: while the for regex matches,
resolve the array (or split string), render the body once per element,
and replace every occurrence of the full match by the loop result. -/
def processForLoops (eng : TemplateEngine) :
    Nat → String → Option (Except String String)
  | 0, _ => none
  | fuel + 1, tmpl =>
    match findForMatch eng.forLeft.data eng.forRight.data tmpl.data with
    | none => some (.ok tmpl)
    | some (full, item, arrName, delim?, body) =>
      match jsonLookup eng.«variables» ⟨arrName⟩ with
      | none =>
        some (.error ("Array " ++ quoted ⟨arrName⟩
          ++ " not found in variables"))
      | some arrVal =>
        match (match delim?, arrVal with
          | some d, .str s =>
            .ok ((splitOnStr d s.data).map (fun part => Json.str ⟨part⟩))
          | some _, _ =>
            .error ("Cannot split non-string variable " ++ quoted ⟨arrName⟩)
          | none, .arr items => .ok items
          | none, _ =>
            .error (quoted ⟨arrName⟩ ++ " is not an array") :
            Except String (List Json)) with
        | .error e => some (.error e)
        | .ok items =>
          match renderItemsAux eng fuel ⟨item⟩ ⟨body⟩ items "" with
          | none => none
          | some (.error e) => some (.error e)
          | some (.ok loopResult) =>
            processForLoops eng fuel (strReplace tmpl ⟨full⟩ loopResult)

/-- TemplateEngine::render_string: the processing order is includes,
then for loops, then variable substitution. -/
def renderString (eng : TemplateEngine) (fuel : Nat) (tmpl : String) :
    Option (Except String String) :=
  match processIncludes eng fuel tmpl with
  | none => none
  | some (.error e) => some (.error e)
  | some (.ok r1) =>
    match processForLoops eng fuel r1 with
    | none => none
    | some (.error e) => some (.error e)
    | some (.ok r2) => processVariables eng fuel r2

/-- C9 (amended): render_string expands includes first, then for-loops,
then applies variable substitution to the fully expanded text; but the
substitution loop is not single-pass: after each substitution the whole
text is scanned again, so substituted text is re-scanned for further
variable constructs and a completed substitution leaves no matching
variable placeholder in the output. -/
theorem C9_render_order_and_rescanning_substitution (eng : TemplateEngine) :
    (∀ (fuel : Nat) (t r1 r2 : String),
        processIncludes eng fuel t = some (.ok r1) →
        processForLoops eng fuel r1 = some (.ok r2) →
        renderString eng fuel t = processVariables eng fuel r2) ∧
    (∀ (fuel : Nat) (t r : String),
        processVariables eng fuel t = some (.ok r) →
        findVarMatch eng.varLeft.data eng.varRight.data r.data = none) := by
  constructor
  · intro fuel t r1 r2 h1 h2
    simp only [renderString, h1, h2]
  · intro fuel
    induction fuel with
    | zero => intro t r h; simp [processVariables] at h
    | succ n ih =>
      intro t r h
      cases hf : findVarMatch eng.varLeft.data eng.varRight.data t.data with
      | none =>
        simp only [processVariables, hf, Option.some.injEq] at h
        injection h with h
        rw [← h]
        exact hf
      | some pr =>
        obtain ⟨full, path⟩ := pr
        cases hg : getVariableValue eng.«variables» ⟨path⟩ with
        | error e => simp [processVariables, hf, hg] at h
        | ok v =>
          simp only [processVariables, hf, hg] at h
          exact ih (strReplace t ⟨full⟩ (valueStr v)) r h

/-- The engine of the C9 witness: one string variable. -/
def c9wEng : TemplateEngine := TemplateEngine.new [("a", Json.str "x")]

/-- Witness for C9: on a template that is a single placeholder, the
render equals the variable pass on the expanded text, the pass resolves
it to x, and the output has no remaining variable match. -/
theorem C9_render_witness :
    renderString c9wEng 5 "\x7b\x7b a \x7d\x7d"
      = processVariables c9wEng 5 "\x7b\x7b a \x7d\x7d" ∧
    processVariables c9wEng 5 "\x7b\x7b a \x7d\x7d" = some (.ok "x") ∧
    findVarMatch c9wEng.varLeft.data c9wEng.varRight.data "x".data = none :=
  ⟨(C9_render_order_and_rescanning_substitution c9wEng).1 5
      "\x7b\x7b a \x7d\x7d" "\x7b\x7b a \x7d\x7d" "\x7b\x7b a \x7d\x7d"
      (by decide) (by decide),
   by decide,
   (C9_render_order_and_rescanning_substitution c9wEng).2 5
      "\x7b\x7b a \x7d\x7d" "x" (by decide)⟩

/-- The engine of the C9 counterexample: the value of a is itself a
placeholder for b. -/
def c9cEng : TemplateEngine :=
  TemplateEngine.new
    [("a", Json.str "\x7b\x7b b \x7d\x7d"), ("b", Json.str "x")]

/-- Counterexample for C9 as stated: substituting the single variable a
once produces the placeholder of b, yet render_string returns x: the
text produced by the first substitution was re-scanned and substituted
again, contradicting the single-pass part of the claim. -/
theorem C9_counterexample_substituted_text_rescanned :
    renderString c9cEng 9 "\x7b\x7b a \x7d\x7d" = some (.ok "x") ∧
    strReplace "\x7b\x7b a \x7d\x7d" "\x7b\x7b a \x7d\x7d" "\x7b\x7b b \x7d\x7d"
      = "\x7b\x7b b \x7d\x7d" ∧
    ¬ ("x" : String) = "\x7b\x7b b \x7d\x7d" :=
  ⟨by decide, by decide, by decide⟩

end NetShell
